import Mathlib

/-!
Verification development for the BiaminoFeedbackTG task/report reconciliation
engine.  The Python services (`sheets_service.py`, `task_sync_service.py`,
`notion_service.py`) are shallowly embedded: spreadsheet tables are lists of
rows (`List (List String)`, first row = header), Python string operations are
modelled over `List Char` (case folding is modelled on ASCII, as by Lean's
`Char.toLower`/`Char.toUpper`), the `uuid4` draw in task-id generation is an
explicit extra input, and database/network access becomes explicit data
passing.
-/

namespace Biamino

/-- Python `str.strip()` / `\s` whitespace class, modelled by Lean's
ASCII whitespace predicate. -/
def isWs (c : Char) : Bool := c.isWhitespace

/-- Drop leading whitespace (first half of Python `str.strip()`). -/
def dropLeadWs (l : List Char) : List Char := l.dropWhile isWs

/-- Drop trailing whitespace (second half of Python `str.strip()`). -/
def dropTrailWs (l : List Char) : List Char := ((l.reverse).dropWhile isWs).reverse

/-- Python `str.strip()` on a character list. -/
def stripList (l : List Char) : List Char := dropTrailWs (dropLeadWs l)

/-- Python `str.strip()`. -/
def pyStrip (s : String) : String := ⟨stripList s.data⟩

/-- Python `str.lower()`, modelled on ASCII. -/
def pyLower (s : String) : String := ⟨s.data.map Char.toLower⟩

/-- Python `str.upper()`, modelled on ASCII. -/
def pyUpper (s : String) : String := ⟨s.data.map Char.toUpper⟩

/-- `re.sub(r'\s+', ' ', ·)`: each maximal whitespace run becomes one space.
The boolean argument records whether the previous character was whitespace. -/
def collapseWsAux : Bool → List Char → List Char
  | _, [] => []
  | prevWs, c :: rest =>
    if isWs c then
      if prevWs then collapseWsAux true rest
      else ' ' :: collapseWsAux true rest
    else c :: collapseWsAux false rest

/-- `re.sub(r'\s+', ' ', s)`. -/
def collapseWs (s : String) : String := ⟨collapseWsAux false s.data⟩

/-- Python `str.split()` (split on whitespace runs, dropping empty parts),
given as token accumulation over the character list. -/
def splitWsAux : List Char → List Char → List String
  | acc, [] => if acc.isEmpty then [] else [⟨acc.reverse⟩]
  | acc, c :: rest =>
    if isWs c then
      if acc.isEmpty then splitWsAux [] rest
      else ⟨acc.reverse⟩ :: splitWsAux [] rest
    else splitWsAux (c :: acc) rest

/-- Python `str.split()` with no arguments. -/
def pySplit (s : String) : List String := splitWsAux [] s.data

/-- Python `\w` word-character class, modelled on ASCII alphanumerics plus
underscore. -/
def isWordChar (c : Char) : Bool := c.isAlphanum || c = '_'

/-- `startsWithList p l` holds when `p` is an initial segment of `l`. -/
def startsWithList : List Char → List Char → Bool
  | [], _ => true
  | _ :: _, [] => false
  | p :: ps, c :: cs => p = c && startsWithList ps cs

/-- Python `pat in s` substring containment on character lists. -/
def containsSeq (pat : List Char) : List Char → Bool
  | [] => startsWithList pat []
  | l@(_ :: rest) => startsWithList pat l || containsSeq pat rest

/-- Python `pat in s` substring containment on strings. -/
def strContains (s pat : String) : Bool := containsSeq pat.data s.data

/-! ### Configured column names (defaults of `config_data/config.py`) -/

def tasks_date_col : String := "Дата"

def tasks_id_col : String := "Task ID"

def tasks_task_col : String := "Задача"

def tasks_deadline_col : String := "Дедлайн"

def tasks_completed_col : String := "Выполнено"

def reports_date_col : String := "Date"

def reports_task_id_col : String := "Task ID"

def reports_feedback_col : String := "Фидбек по задачам"

def reports_difficulties_col : String := "Сложности по задачам"

def reports_daily_report_col : String := "Отчет за день"

/-- Tasks-table header row as written by `_initialize_employee_sheet`
(columns A-E, configured order). -/
def defaultTasksHeader : List String :=
  [tasks_date_col, tasks_id_col, tasks_task_col, tasks_deadline_col, tasks_completed_col]

/-- Reports-table header row as written by `_initialize_employee_sheet` /
`_ensure_reports_table_exists` (columns H-L, configured order). -/
def defaultReportsHeader : List String :=
  [reports_date_col, reports_task_id_col, reports_feedback_col,
   reports_difficulties_col, reports_daily_report_col]

/-! ### `notion_service.py` -/

/-- A task dictionary as produced by `NotionService._process_page_to_task`. -/
structure NotionTask where
  task_name : String
  due_date : String
  status : String
  worker_name : String
  database_id : String
  page_id : String
  deriving DecidableEq, Repr

/-- `NotionService.clean_worker_name`: strip non-word non-space non-hyphen
characters to spaces, collapse whitespace, trim, split, and pick the first
two tokens as (first name, last name). -/
def clean_worker_name (worker_name : String) : String × String :=
  let cleaned : String :=
    ⟨worker_name.data.map (fun c => if !(isWordChar c || isWs c || c = '-') then ' ' else c)⟩
  let cleaned2 : String := pyStrip (collapseWs cleaned)
  let parts := pySplit cleaned2
  match parts with
  | p0 :: p1 :: _ => (p0, p1)
  | [p0] => (p0, "")
  | [] => ("", "")

/-- The meaningful tokens of a cleaned assignee display name
(`cleaned.split()` in `clean_worker_name`). -/
def cleanNameParts (worker_name : String) : List String :=
  let cleaned : String :=
    ⟨worker_name.data.map (fun c => if !(isWordChar c || isWs c || c = '-') then ' ' else c)⟩
  pySplit (pyStrip (collapseWs cleaned))

/-! ### `task_sync_service.py` -/

/-- `TaskSyncService._normalize_task_name`: strip, lowercase, collapse
whitespace runs to single spaces (empty input short-circuits to `""`). -/
def normalize_task_name (task_name : String) : String :=
  if task_name = "" then ""
  else collapseWs (pyLower (pyStrip task_name))

/-- `TaskSyncService._generate_task_id`.  The Python code draws
`str(uuid.uuid4())[:8]`; the drawn suffix is an explicit argument here. -/
def generate_task_id (task_name : String) (database_id : String) (random_suffix : String) : String :=
  let dbPart := database_id.data.take 8
  let taskPart := (task_name.data.filter isWordChar).take 20
  pyUpper ⟨"NOTION_".data ++ dbPart ++ "_".data ++ taskPart ++ "_".data ++ random_suffix.data⟩

/-- Column indices found by the two-branch header loop of
`_get_existing_notion_tasks`. -/
structure NotionCols where
  task_id : Option Nat
  task : Option Nat
  deriving DecidableEq, Repr

/-- The `for i, header in enumerate(header_row)` loop of
`_get_existing_notion_tasks` (later matches overwrite earlier ones). -/
def notionColsLoop (acc : NotionCols) (i : Nat) : List String → NotionCols
  | [] => acc
  | h :: rest =>
    let acc' :=
      if h = tasks_id_col then { acc with task_id := some i }
      else if h = tasks_task_col then { acc with task := some i }
      else acc
    notionColsLoop acc' (i + 1) rest

/-- Per-row contribution to the existing-Notion-task key set: rows with
non-blank id and name cells whose stripped id contains the `NOTION_`
marker contribute the normalized stripped task name. -/
def notionRowKey (idCol nameCol : Nat) (row : List String) : Option String :=
  if row.length > max idCol nameCol
      && pyStrip (row.getD idCol "") ≠ ""
      && pyStrip (row.getD nameCol "") ≠ "" then
    let tid := pyStrip (row.getD idCol "")
    if strContains tid "NOTION_" then
      some (normalize_task_name (pyStrip (row.getD nameCol "")))
    else none
  else none

/-- `TaskSyncService._get_existing_notion_tasks` over the fetched
tasks-table values (header row first).  The Python set of identifiers is
modelled as a list queried only by membership. -/
def get_existing_notion_tasks (tasksValues : List (List String)) : List String :=
  if tasksValues.length ≤ 1 then []
  else
    let header := tasksValues.headD []
    let cols := notionColsLoop ⟨none, none⟩ 0 header
    match cols.task_id, cols.task with
    | some idCol, some nameCol => tasksValues.tail.filterMap (notionRowKey idCol nameCol)
    | _, _ => []

/-- The duplicate-filter loop of `_sync_worker_tasks` (lines 106-116):
`tasks_to_add` starts empty and each candidate whose normalized name is not
among the existing keys is appended. -/
def filter_new_tasks (tasks : List NotionTask) (existing : List String) : List NotionTask :=
  tasks.foldl
    (fun acc t =>
      if normalize_task_name t.task_name ∈ existing then acc else acc ++ [t])
    []

/-- `TaskSyncService._add_task_to_sheet`: fails (`none`) when no table data
was fetched, otherwise appends the five-cell task row after the last
fetched row. -/
def add_task_to_sheet (tasksValues : List (List String)) (today task_id task_name due_date : String) :
    Option (List (List String)) :=
  match tasksValues with
  | [] => none
  | _ => some (tasksValues ++ [[today, task_id, task_name, due_date, ""]])

/-- The append loop of `_sync_worker_tasks`: one task id is generated per
task (consuming one uuid draw), a failed append leaves the table unchanged
and processing continues. -/
def appendTasksLoop (today : String) (uuid : Nat → String) :
    List (List String) → Nat → List NotionTask → List (List String)
  | v, _, [] => v
  | v, i, t :: rest =>
    let tid := generate_task_id t.task_name t.database_id (uuid i)
    match add_task_to_sheet v today tid t.task_name t.due_date with
    | some v' => appendTasksLoop today uuid v' (i + 1) rest
    | none => appendTasksLoop today uuid v (i + 1) rest

/-- The table-mutating core of `TaskSyncService._sync_worker_tasks` for one
worker: read existing externally-sourced keys, drop duplicate candidates,
append the survivors. -/
def sync_worker_tasks (tasksValues : List (List String)) (tasks : List NotionTask)
    (today : String) (uuid : Nat → String) : List (List String) :=
  let existing := get_existing_notion_tasks tasksValues
  let tasksToAdd := filter_new_tasks tasks existing
  appendTasksLoop today uuid tasksValues 0 tasksToAdd

/-! ### `sheets_service.py`: tasks table -/

/-- Column indices found by the five-branch header loop of
`get_employee_active_tasks`. -/
structure TaskCols where
  date : Option Nat
  task_id : Option Nat
  task : Option Nat
  deadline : Option Nat
  completed : Option Nat
  deriving DecidableEq, Repr

/-- The `for i, header in enumerate(header_row)` loop of
`get_employee_active_tasks` (an `elif` chain; later matches overwrite
earlier ones). -/
def taskColsLoop (acc : TaskCols) (i : Nat) : List String → TaskCols
  | [] => acc
  | h :: rest =>
    let acc' :=
      if h = tasks_date_col then { acc with date := some i }
      else if h = tasks_id_col then { acc with task_id := some i }
      else if h = tasks_task_col then { acc with task := some i }
      else if h = tasks_deadline_col then { acc with deadline := some i }
      else if h = tasks_completed_col then { acc with completed := some i }
      else acc
    taskColsLoop acc' (i + 1) rest

/-- A `task_data` dictionary built by `get_employee_active_tasks`. -/
structure ActiveTask where
  date : String
  task_id : String
  task : String
  deadline : String
  deriving DecidableEq, Repr

/-- Values recognizing a completed task in the `Выполнено` cell. -/
def completedMarks : List String := ["да", "yes", "1", "true", "+"]

/-- The `is_completed` test of `get_employee_active_tasks`: a completed
column was found, the row reaches it, and the stripped lowercased cell is a
completion mark. -/
def isCompletedRow (completedCol : Option Nat) (row : List String) : Bool :=
  match completedCol with
  | some c => row.length > c && pyLower (pyStrip (row.getD c "")) ∈ completedMarks
  | none => false

/-- Whether a data row survives the loop of `get_employee_active_tasks`:
rows not reaching the furthest required column are skipped, then the task
must not be completed and must have non-blank id and description cells. -/
def activeRowPred (dateCol idCol taskCol : Nat) (completedCol : Option Nat)
    (row : List String) : Bool :=
  row.length > max dateCol (max idCol taskCol)
    && !isCompletedRow completedCol row
    && pyStrip (row.getD idCol "") ≠ ""
    && pyStrip (row.getD taskCol "") ≠ ""

/-- The `task_data` record taken from a surviving row.  The deadline cell
reproduces Python's `deadline_col and len(row) > deadline_col` truthiness
test (a deadline column at index 0 is falsy). -/
def mkActiveTask (dateCol idCol taskCol : Nat) (deadlineCol : Option Nat)
    (row : List String) : ActiveTask :=
  { date := row.getD dateCol ""
    task_id := row.getD idCol ""
    task := row.getD taskCol ""
    deadline :=
      match deadlineCol with
      | some k => if k ≠ 0 ∧ row.length > k then row.getD k "" else ""
      | none => "" }

/-- The row loop of `get_employee_active_tasks`. -/
def activeTasksLoop (dateCol idCol taskCol : Nat) (deadlineCol completedCol : Option Nat) :
    List (List String) → List ActiveTask
  | [] => []
  | row :: rest =>
    if activeRowPred dateCol idCol taskCol completedCol row then
      mkActiveTask dateCol idCol taskCol deadlineCol row
        :: activeTasksLoop dateCol idCol taskCol deadlineCol completedCol rest
    else activeTasksLoop dateCol idCol taskCol deadlineCol completedCol rest

/-- `GoogleSheetsService.get_employee_active_tasks` over the fetched
tasks-table values (header row first). -/
def get_employee_active_tasks (tasksValues : List (List String)) : List ActiveTask :=
  if tasksValues.length ≤ 1 then []
  else
    let header := tasksValues.headD []
    let cols := taskColsLoop ⟨none, none, none, none, none⟩ 0 header
    match cols.date, cols.task_id, cols.task with
    | some dateCol, some idCol, some taskCol =>
      activeTasksLoop dateCol idCol taskCol cols.deadline cols.completed tasksValues.tail
    | _, _, _ => []

/-! ### `sheets_service.py`: reports table, reads -/

/-- Column indices found by the two-branch header loop of
`get_existing_reports_for_date`. -/
structure ReportCols2 where
  date : Option Nat
  task_id : Option Nat
  deriving DecidableEq, Repr

/-- The header loop of `get_existing_reports_for_date`. -/
def reportCols2Loop (acc : ReportCols2) (i : Nat) : List String → ReportCols2
  | [] => acc
  | h :: rest =>
    let acc' :=
      if h = reports_date_col then { acc with date := some i }
      else if h = reports_task_id_col then { acc with task_id := some i }
      else acc
    reportCols2Loop acc' (i + 1) rest

/-- A report dictionary built by `get_existing_reports_for_date`. -/
structure Report where
  date : String
  task_id : String
  deriving DecidableEq, Repr

/-- `GoogleSheetsService.get_existing_reports_for_date` over the fetched
reports-table values (header row first): rows matching the date whose
task-id cell is non-blank after stripping. -/
def get_existing_reports_for_date (reportsValues : List (List String)) (date : String) :
    List Report :=
  if reportsValues.length ≤ 1 then []
  else
    let header := reportsValues.headD []
    let cols := reportCols2Loop ⟨none, none⟩ 0 header
    match cols.date, cols.task_id with
    | some dateCol, some idCol =>
      reportsValues.tail.filterMap (fun row =>
        if row.length > dateCol && row.getD dateCol "" = date
            && row.length > idCol && pyStrip (row.getD idCol "") ≠ "" then
          some { date := row.getD dateCol "", task_id := row.getD idCol "" }
        else none)
    | _, _ => []

/-- `GoogleSheetsService.get_tasks_without_reports_today`: active tasks
whose id is not among today's reported task ids. -/
def get_tasks_without_reports_today (tasksValues reportsValues : List (List String))
    (today : String) : List ActiveTask :=
  let activeTasks := get_employee_active_tasks tasksValues
  if activeTasks.isEmpty then []
  else
    let reportedIds := (get_existing_reports_for_date reportsValues today).map Report.task_id
    activeTasks.filter (fun t => decide (t.task_id ∉ reportedIds))

/-! ### `sheets_service.py`: reports table, writes and completeness -/

/-- Column indices found by the five-branch header loop of
`save_daily_report` / `check_report_submitted`. -/
structure ReportCols5 where
  date : Option Nat
  task_id : Option Nat
  feedback : Option Nat
  difficulties : Option Nat
  daily_report : Option Nat
  deriving DecidableEq, Repr

/-- One `elif` chain step of the five-branch header loop over the reports
header. -/
def reportCols5Step (acc : ReportCols5) (i : Nat) (h : String) : ReportCols5 :=
  if h = reports_date_col then { acc with date := some i }
  else if h = reports_task_id_col then { acc with task_id := some i }
  else if h = reports_feedback_col then { acc with feedback := some i }
  else if h = reports_difficulties_col then { acc with difficulties := some i }
  else if h = reports_daily_report_col then { acc with daily_report := some i }
  else acc

/-- The five-branch `elif` header loop over the reports header. -/
def reportCols5Loop (acc : ReportCols5) (i : Nat) : List String → ReportCols5
  | [] => acc
  | h :: rest => reportCols5Loop (reportCols5Step acc i h) (i + 1) rest

/-- The existing-entry test of `save_daily_report`: the row reaches both
columns and matches today's date and the task id exactly. -/
def matchReportRow (dateCol idCol : Nat) (today task_id : String) (row : List String) : Bool :=
  row.length > max dateCol idCol
    && row.getD dateCol "" = today
    && row.getD idCol "" = task_id

/-- Write one cell of a sheet row; the sheet grows the row with empty cells
when the target column lies beyond its current width. -/
def setCellPad (row : List String) (k : Nat) (v : String) : List String :=
  (row ++ List.replicate (k + 1 - row.length) "").set k v

/-- The in-place range update of `save_daily_report`: the three text values
are written into the three consecutive cells starting at the feedback
column (the range `feedback_col..daily_report_col`). -/
def updateReportCells (feedbackCol : Nat) (feedback difficulties daily_report : String)
    (row : List String) : List String :=
  setCellPad (setCellPad (setCellPad row feedbackCol feedback)
    (feedbackCol + 1) difficulties) (feedbackCol + 2) daily_report

/-- `GoogleSheetsService.save_daily_report` over the fetched reports-table
values: returns the success flag and the resulting table.  An empty fetch
triggers `_ensure_reports_table_exists`, which writes the configured header
row; a header missing any of the five configured columns aborts with no row
written; a non-empty `task_id` whose `(today, task_id)` pair already has a
row updates that row in place; otherwise a fresh row is appended after the
last fetched row. -/
def save_daily_report (reportsValues : List (List String))
    (today task_id feedback difficulties daily_report : String) :
    Bool × List (List String) :=
  let values := if reportsValues.isEmpty then [defaultReportsHeader] else reportsValues
  let header := values.headD []
  let cols := reportCols5Loop ⟨none, none, none, none, none⟩ 0 header
  match cols.date, cols.task_id, cols.feedback, cols.difficulties, cols.daily_report with
  | some dateCol, some idCol, some fbCol, some _dfCol, some _drCol =>
    let rowToUpdate :=
      if task_id ≠ "" then values.tail.findIdx? (matchReportRow dateCol idCol today task_id)
      else none
    match rowToUpdate with
    | some j =>
      (true, values.headD [] ::
        values.tail.set j (updateReportCells fbCol feedback difficulties daily_report
          (values.tail.getD j [])))
    | none =>
      let newRow :=
        ((((List.replicate 5 "").set dateCol today).set idCol task_id).set fbCol
          feedback |>.set _dfCol difficulties).set _drCol daily_report
      (true, values ++ [newRow])
  | _, _, _, _, _ => (false, values)

/-- `GoogleSheetsService.check_report_submitted` over the fetched tables:
general-report short-circuit, vacuous completeness with no active tasks,
missing-report test, then the per-date completeness scan requiring all
three text fields non-blank for every active task. -/
def check_report_submitted (tasksValues reportsValues : List (List String))
    (date : String) : Bool :=
  let activeTasks := get_employee_active_tasks tasksValues
  let reports := get_existing_reports_for_date reportsValues date
  let reportedIds := reports.map Report.task_id
  if ("" : String) ∈ reportedIds then true
  else if activeTasks.isEmpty then true
  else
    let activeIds := (activeTasks.map ActiveTask.task_id).dedup
    if activeIds.any (fun tid => decide (tid ∉ reportedIds)) then false
    else if reportsValues.length ≤ 1 then false
    else
      let header := reportsValues.headD []
      let cols := reportCols5Loop ⟨none, none, none, none, none⟩ 0 header
      match cols.date, cols.task_id, cols.feedback, cols.difficulties, cols.daily_report with
      | some dateCol, some idCol, some fbCol, some dfCol, some drCol =>
        let complete := (reportsValues.tail.filterMap (fun row =>
          if row.length > dateCol ∧ row.getD dateCol "" = date then
            let tid := pyStrip (row.getD idCol "")
            let f := pyStrip (row.getD fbCol "")
            let df := pyStrip (row.getD dfCol "")
            let dr := pyStrip (row.getD drCol "")
            if tid ∈ activeIds ∧ f ≠ "" ∧ df ≠ "" ∧ dr ≠ "" then some tid else none
          else none)).dedup
        decide (complete.length = activeIds.length)
      | _, _, _, _, _ => false

/-! ### Spec-side and proof-side auxiliary definitions -/

/-- The 5-cell task rows appended by the `_sync_worker_tasks` loop,
one uuid draw per task. -/
def mkNewRows (today : String) (uuid : Nat → String) : Nat → List NotionTask → List (List String)
  | _, [] => []
  | i, t :: rest =>
    [today, generate_task_id t.task_name t.database_id (uuid i), t.task_name, t.due_date, ""]
      :: mkNewRows today uuid (i + 1) rest

/-- The spec's `NormalizedKey`, following the spec's words: the lowercase,
whitespace-collapsed, trimmed task description. -/
def specNormalizedName (s : String) : String := collapseWs (pyLower (pyStrip s))

/-- The identity function of the Deduplication Engine as used by
`_sync_worker_tasks`: the key of a candidate task is its normalized name
(the due date plays no part). -/
def identityKey (t : NotionTask) : String := normalize_task_name t.task_name

/-- Spec-side reading of C7's reported set over the canonical reports
layout: the task-id cells of the report rows carrying today's date. -/
def todayReportRowIds (reportData : List (List String)) (today : String) : List String :=
  reportData.filterMap (fun r =>
    if r.length > 0 ∧ r.getD 0 "" = today then some (r.getD 1 "") else none)

/-- The C6 invariant over the canonical reports layout: for every date and
every non-empty task id, at most one data row matches the pair. -/
def atMostOnePerPair (rows : List (List String)) : Prop :=
  ∀ d t : String, t ≠ "" → rows.countP (matchReportRow 0 1 d t) ≤ 1

/-! ### Helper lemmas: whitespace stripping -/

theorem dropWhile_self_of_head (p : Char → Bool) (l : List Char)
    (h : ∀ c ∈ l.head?, p c = false) : l.dropWhile p = l := by
  cases l with
  | nil => rfl
  | cons c rest =>
    have hc : p c = false := h c rfl
    simp [List.dropWhile, hc]

theorem dropWhile_head_false (p : Char → Bool) (l : List Char) :
    ∀ c ∈ (l.dropWhile p).head?, p c = false := by
  induction l with
  | nil => intro c hc; simp at hc
  | cons a rest ih =>
    intro c hc
    by_cases ha : p a
    · simp [List.dropWhile, ha] at hc
      exact ih c hc
    · simp [List.dropWhile, ha] at hc
      simp [hc] at ha ⊢
      exact ha

theorem dropWhile_dropWhile (p : Char → Bool) (l : List Char) :
    (l.dropWhile p).dropWhile p = l.dropWhile p :=
  dropWhile_self_of_head p _ (dropWhile_head_false p l)

theorem dropTrailWs_dropTrailWs (l : List Char) :
    dropTrailWs (dropTrailWs l) = dropTrailWs l := by
  simp [dropTrailWs, dropWhile_dropWhile]

/-- `dropTrailWs l` is an initial segment of `l`. -/
theorem dropTrailWs_append_of (l : List Char) : ∃ u, l = dropTrailWs l ++ u := by
  refine ⟨(l.reverse.takeWhile isWs).reverse, ?_⟩
  simp only [dropTrailWs]
  rw [← List.reverse_append, List.takeWhile_append_dropWhile, List.reverse_reverse]

theorem head_of_dropTrailWs (l : List Char) :
    ∀ c ∈ (dropTrailWs l).head?, c ∈ l.head? := by
  intro c hc
  obtain ⟨u, hu⟩ := dropTrailWs_append_of l
  cases hdt : dropTrailWs l with
  | nil => rw [hdt] at hc; simp at hc
  | cons a rest =>
    rw [hdt] at hc hu
    simp at hc
    subst hc
    rw [hu]
    rfl

theorem stripList_stripList (l : List Char) : stripList (stripList l) = stripList l := by
  unfold stripList
  have h1 : dropLeadWs (dropTrailWs (dropLeadWs l)) = dropTrailWs (dropLeadWs l) := by
    apply dropWhile_self_of_head
    intro c hc
    have hc' := head_of_dropTrailWs (dropLeadWs l) c hc
    exact dropWhile_head_false isWs l c hc'
  rw [h1, dropTrailWs_dropTrailWs]

theorem pyStrip_pyStrip (s : String) : pyStrip (pyStrip s) = pyStrip s := by
  simp [pyStrip, stripList_stripList]

theorem pyStrip_empty : pyStrip "" = "" := rfl

/-! ### Helper lemmas: substring containment -/

theorem startsWithList_append (p r : List Char) : startsWithList p (p ++ r) = true := by
  induction p with
  | nil => rfl
  | cons c cs ih => simp [startsWithList, ih]

theorem containsSeq_of_startsWith (pat l : List Char) (h : startsWithList pat l = true) :
    containsSeq pat l = true := by
  cases l with
  | nil => simpa [containsSeq] using h
  | cons c rest => simp [containsSeq, h]

/-! ### Helper lemmas: split tokens are non-blank -/

theorem splitWsAux_ne_empty (l : List Char) :
    ∀ acc s, s ∈ splitWsAux acc l → s ≠ "" := by
  induction l with
  | nil =>
    intro acc s hs
    by_cases hacc : acc.isEmpty
    · simp [splitWsAux, hacc] at hs
    · simp [splitWsAux, hacc] at hs
      subst hs
      simp [List.isEmpty_iff] at hacc
      intro hcon
      have hd : acc.reverse = [] := by simpa using congrArg String.data hcon
      exact hacc (List.reverse_eq_nil_iff.mp hd)
  | cons c rest ih =>
    intro acc s hs
    by_cases hws : isWs c
    · by_cases hacc : acc.isEmpty
      · simp [splitWsAux, hws, hacc] at hs
        exact ih [] s hs
      · simp [splitWsAux, hws, hacc] at hs
        rcases hs with hs | hs
        · subst hs
          simp [List.isEmpty_iff] at hacc
          intro hcon
          have hd : acc.reverse = [] := by simpa using congrArg String.data hcon
          exact hacc (List.reverse_eq_nil_iff.mp hd)
        · exact ih [] s hs
    · simp [splitWsAux, hws] at hs
      exact ih (c :: acc) s hs

theorem pySplit_ne_empty (s t : String) (h : t ∈ pySplit s) : t ≠ "" :=
  splitWsAux_ne_empty s.data [] t h

/-! ### Helper lemmas: task-name normalization -/

theorem normalize_task_name_pyStrip (s : String) :
    normalize_task_name (pyStrip s) = normalize_task_name s := by
  by_cases hs : s = ""
  · subst hs; rfl
  · by_cases hstrip : pyStrip s = ""
    · rw [hstrip]
      have hl : pyLower "" = "" := rfl
      have hc : collapseWs "" = "" := rfl
      simp [normalize_task_name, hs, hstrip, hl, hc]
    · simp [normalize_task_name, hs, hstrip, pyStrip_pyStrip]

/-! ### Helper lemmas: the generated task id keeps its marker after stripping -/

theorem dropTrailWs_append_cons (X S : List Char) (c : Char) (hc : isWs c = false) :
    ∃ T, dropTrailWs (X ++ c :: S) = X ++ c :: T := by
  have hrev : (X ++ c :: S).reverse = S.reverse ++ c :: X.reverse := by
    simp
  by_cases hS : (S.reverse.dropWhile isWs).isEmpty
  · refine ⟨[], ?_⟩
    simp only [dropTrailWs, hrev, List.dropWhile_append, hS, if_true]
    simp [List.dropWhile_cons, hc]
  · refine ⟨(S.reverse.dropWhile isWs).reverse, ?_⟩
    simp only [dropTrailWs, hrev, List.dropWhile_append, hS, if_false]
    simp

theorem stripList_notion_id (Y S : List Char) :
    ∃ T, stripList ("NOTION_".data ++ Y ++ '_' :: S) = "NOTION_".data ++ (Y ++ '_' :: T) := by
  have hlead : dropLeadWs ("NOTION_".data ++ Y ++ '_' :: S) = "NOTION_".data ++ Y ++ '_' :: S := by
    show List.dropWhile isWs ('N' :: ("OTION_".data ++ Y ++ '_' :: S)) = _
    rw [List.dropWhile_cons]
    simp [isWs]
  obtain ⟨T, hT⟩ := dropTrailWs_append_cons ("NOTION_".data ++ Y) S '_' (by decide)
  refine ⟨T, ?_⟩
  unfold stripList
  rw [hlead, hT, List.append_assoc]

theorem generate_task_id_data (n d s : String) :
    (generate_task_id n d s).data
      = "NOTION_".data
        ++ ((d.data.take 8).map Char.toUpper ++ '_' :: ((n.data.filter isWordChar).take 20).map Char.toUpper)
        ++ '_' :: s.data.map Char.toUpper := by
  have hnot : "NOTION_".data.map Char.toUpper = "NOTION_".data := by decide
  have hu : "_".data.map Char.toUpper = ['_'] := by decide
  simp only [generate_task_id, pyUpper, List.map_append, hnot, hu]
  simp

theorem pyStrip_generate_task_id (n d s : String) :
    pyStrip (generate_task_id n d s) ≠ ""
      ∧ strContains (pyStrip (generate_task_id n d s)) "NOTION_" = true := by
  obtain ⟨T, hT⟩ := stripList_notion_id
    ((d.data.take 8).map Char.toUpper ++ '_' :: ((n.data.filter isWordChar).take 20).map Char.toUpper)
    (s.data.map Char.toUpper)
  have hdata : (pyStrip (generate_task_id n d s)).data
      = "NOTION_".data ++ (((d.data.take 8).map Char.toUpper
          ++ '_' :: ((n.data.filter isWordChar).take 20).map Char.toUpper) ++ '_' :: T) := by
    show stripList (generate_task_id n d s).data = _
    rw [generate_task_id_data]
    exact hT
  constructor
  · intro hcon
    have := congrArg String.data hcon
    rw [hdata] at this
    simp at this
  · show containsSeq "NOTION_".data (pyStrip (generate_task_id n d s)).data = true
    rw [hdata]
    exact containsSeq_of_startsWith _ _ (startsWithList_append _ _)

/-! ### Helper lemmas: the duplicate filter is `List.filter` -/

theorem filter_new_tasks_foldl (tasks : List NotionTask) (existing : List String) :
    ∀ acc : List NotionTask,
      tasks.foldl
        (fun acc t =>
          if normalize_task_name t.task_name ∈ existing then acc else acc ++ [t]) acc
        = acc ++ tasks.filter
            (fun t => decide (normalize_task_name t.task_name ∉ existing)) := by
  induction tasks with
  | nil => intro acc; simp
  | cons t rest ih =>
    intro acc
    by_cases hmem : normalize_task_name t.task_name ∈ existing
    · simp only [List.foldl_cons, if_pos hmem, List.filter_cons]
      rw [ih acc]
      simp [hmem]
    · simp only [List.foldl_cons, if_neg hmem, List.filter_cons]
      rw [ih (acc ++ [t])]
      simp [hmem]

theorem filter_new_tasks_eq_filter (tasks : List NotionTask) (existing : List String) :
    filter_new_tasks tasks existing
      = tasks.filter (fun t => decide (normalize_task_name t.task_name ∉ existing)) := by
  unfold filter_new_tasks
  simpa using filter_new_tasks_foldl tasks existing []

/-! ### Helper lemmas: sync over the canonical tasks table -/

theorem notionColsLoop_default :
    notionColsLoop ⟨none, none⟩ 0 defaultTasksHeader = ⟨some 1, some 2⟩ := by decide

theorem get_existing_notion_tasks_canonical (data : List (List String)) :
    get_existing_notion_tasks (defaultTasksHeader :: data)
      = data.filterMap (notionRowKey 1 2) := by
  cases data with
  | nil => rfl
  | cons r rest =>
    unfold get_existing_notion_tasks
    rw [if_neg (by simp)]
    simp only [List.headD_cons, List.tail_cons, notionColsLoop_default]

theorem appendTasksLoop_eq (today : String) (uuid : Nat → String) :
    ∀ (ts : List NotionTask) (v : List (List String)) (i : Nat), v ≠ [] →
      appendTasksLoop today uuid v i ts = v ++ mkNewRows today uuid i ts := by
  intro ts
  induction ts with
  | nil => intro v i _; simp [appendTasksLoop, mkNewRows]
  | cons t rest ih =>
    intro v i hv
    cases v with
    | nil => exact absurd rfl hv
    | cons a as =>
      show appendTasksLoop today uuid (a :: as) i (t :: rest) = _
      unfold appendTasksLoop add_task_to_sheet
      simp only []
      rw [ih ((a :: as) ++ [[today, generate_task_id t.task_name t.database_id (uuid i),
        t.task_name, t.due_date, ""]]) (i + 1) (by simp)]
      simp [mkNewRows]

theorem notionRowKey_new (today tid name due : String)
    (htid1 : pyStrip tid ≠ "") (htid2 : strContains (pyStrip tid) "NOTION_" = true)
    (hname : pyStrip name ≠ "") :
    notionRowKey 1 2 [today, tid, name, due, ""]
      = some (normalize_task_name name) := by
  have h5 : ([today, tid, name, due, ""] : List String).length > max 1 2 := by simp
  simp only [notionRowKey, List.getD]
  simp [htid1, htid2, hname, normalize_task_name_pyStrip]

theorem mkNewRows_filterMap (today : String) (uuid : Nat → String) :
    ∀ (ts : List NotionTask) (i : Nat), (∀ t ∈ ts, pyStrip t.task_name ≠ "") →
      (mkNewRows today uuid i ts).filterMap (notionRowKey 1 2)
        = ts.map (fun t => normalize_task_name t.task_name) := by
  intro ts
  induction ts with
  | nil => intro i _; rfl
  | cons t rest ih =>
    intro i hstrip
    have hgid := pyStrip_generate_task_id t.task_name t.database_id (uuid i)
    have hkey := notionRowKey_new today
      (generate_task_id t.task_name t.database_id (uuid i)) t.task_name t.due_date
      hgid.1 hgid.2 (hstrip t (by simp))
    simp only [mkNewRows, List.filterMap_cons, hkey]
    rw [ih (i + 1) (fun x hx => hstrip x (by simp [hx]))]
    simp

theorem sync_worker_tasks_canonical (data : List (List String)) (tasks : List NotionTask)
    (today : String) (uuid : Nat → String) :
    sync_worker_tasks (defaultTasksHeader :: data) tasks today uuid
      = defaultTasksHeader :: (data ++ mkNewRows today uuid 0
          (filter_new_tasks tasks (get_existing_notion_tasks (defaultTasksHeader :: data)))) := by
  unfold sync_worker_tasks
  rw [appendTasksLoop_eq today uuid _ (defaultTasksHeader :: data) 0 (by simp)]
  simp

theorem sync_worker_tasks_no_new (v : List (List String)) (tasks : List NotionTask)
    (today : String) (uuid : Nat → String)
    (h : ∀ t ∈ tasks, normalize_task_name t.task_name ∈ get_existing_notion_tasks v) :
    sync_worker_tasks v tasks today uuid = v := by
  show appendTasksLoop today uuid v 0
    (filter_new_tasks tasks (get_existing_notion_tasks v)) = v
  rw [filter_new_tasks_eq_filter]
  have hnil : tasks.filter
      (fun t => decide (normalize_task_name t.task_name ∉ get_existing_notion_tasks v)) = [] := by
    rw [List.filter_eq_nil_iff]
    intro a ha
    simp [h a ha]
  rw [hnil]
  rfl

/-! ### Helper lemmas: active-task extraction -/

theorem activeTasksLoop_eq_filter_map (d i t : Nat) (dl cc : Option Nat)
    (rows : List (List String)) :
    activeTasksLoop d i t dl cc rows
      = (rows.filter (activeRowPred d i t cc)).map (mkActiveTask d i t dl) := by
  induction rows with
  | nil => rfl
  | cons r rest ih =>
    by_cases hp : activeRowPred d i t cc r
    · simp [activeTasksLoop, hp, ih]
    · simp [activeTasksLoop, hp, ih]

theorem get_employee_active_tasks_eq (header : List String) (data : List (List String))
    (d i t : Nat) (dl cc : Option Nat)
    (hcols : taskColsLoop ⟨none, none, none, none, none⟩ 0 header
      = ⟨some d, some i, some t, dl, cc⟩) :
    get_employee_active_tasks (header :: data)
      = (data.filter (activeRowPred d i t cc)).map (mkActiveTask d i t dl) := by
  cases data with
  | nil => simp [get_employee_active_tasks]
  | cons r rest =>
    unfold get_employee_active_tasks
    rw [if_neg (by simp)]
    simp only [List.headD_cons, List.tail_cons, hcols]
    exact activeTasksLoop_eq_filter_map d i t dl cc (r :: rest)

theorem taskColsLoop_default :
    taskColsLoop ⟨none, none, none, none, none⟩ 0 defaultTasksHeader
      = ⟨some 0, some 1, some 2, some 3, some 4⟩ := by decide

theorem get_employee_active_tasks_canonical (data : List (List String)) :
    get_employee_active_tasks (defaultTasksHeader :: data)
      = (data.filter (activeRowPred 0 1 2 (some 4))).map (mkActiveTask 0 1 2 (some 3)) :=
  get_employee_active_tasks_eq defaultTasksHeader data 0 1 2 (some 3) (some 4)
    taskColsLoop_default

theorem mem_active_canonical_strip_ne (taskData : List (List String)) (x : ActiveTask)
    (hx : x ∈ get_employee_active_tasks (defaultTasksHeader :: taskData)) :
    pyStrip x.task_id ≠ "" := by
  rw [get_employee_active_tasks_canonical] at hx
  rcases List.mem_map.mp hx with ⟨r, hr, hxr⟩
  have hpred := (List.mem_filter.mp hr).2
  simp only [activeRowPred, Bool.and_eq_true, decide_eq_true_eq] at hpred
  have : x.task_id = r.getD 1 "" := by rw [← hxr]; rfl
  rw [this]
  exact hpred.1.2

/-! ### Helper lemmas: reported-id reads over the canonical reports header -/

theorem reportCols2Loop_default :
    reportCols2Loop ⟨none, none⟩ 0 defaultReportsHeader = ⟨some 0, some 1⟩ := by decide

theorem get_existing_reports_canonical (rd : List (List String)) (date : String) :
    get_existing_reports_for_date (defaultReportsHeader :: rd) date
      = rd.filterMap (fun row =>
          if row.length > 0 && row.getD 0 "" = date
              && row.length > 1 && pyStrip (row.getD 1 "") ≠ "" then
            some { date := row.getD 0 "", task_id := row.getD 1 "" }
          else none) := by
  cases rd with
  | nil => rfl
  | cons r rest =>
    unfold get_existing_reports_for_date
    rw [if_neg (by simp)]
    simp only [List.headD_cons, List.tail_cons, reportCols2Loop_default]

theorem reported_mem_iff (rd : List (List String)) (today x : String)
    (hx : pyStrip x ≠ "") :
    x ∈ (get_existing_reports_for_date (defaultReportsHeader :: rd) today).map Report.task_id
      ↔ x ∈ todayReportRowIds rd today := by
  rw [get_existing_reports_canonical]
  constructor
  · intro h
    rcases List.mem_map.mp h with ⟨rep, hrep, hxrep⟩
    rcases List.mem_filterMap.mp hrep with ⟨row, hrow, hsome⟩
    by_cases hc : row.length > 0 && row.getD 0 "" = today
        && row.length > 1 && pyStrip (row.getD 1 "") ≠ ""
    · rw [if_pos hc] at hsome
      simp only [Bool.and_eq_true, decide_eq_true_eq] at hc
      apply List.mem_filterMap.mpr
      refine ⟨row, hrow, ?_⟩
      rw [if_pos ⟨hc.1.1.1, hc.1.1.2⟩]
      have h' := Option.some.inj hsome
      rw [← hxrep, ← h']
    · rw [if_neg hc] at hsome
      exact absurd hsome (by simp)
  · intro h
    rcases List.mem_filterMap.mp h with ⟨row, hrow, hsome⟩
    by_cases hc : row.length > 0 ∧ row.getD 0 "" = today
    · rw [if_pos hc] at hsome
      have hx1 : row.getD 1 "" = x := by
        injection hsome
      have hlen : row.length > 1 := by
        by_contra hlen
        push_neg at hlen
        have : row.getD 1 "" = "" := List.getD_eq_default row "" hlen
        rw [hx1] at this
        rw [this] at hx
        exact hx rfl
      apply List.mem_map.mpr
      refine ⟨{ date := row.getD 0 "", task_id := row.getD 1 "" }, ?_, hx1⟩
      apply List.mem_filterMap.mpr
      refine ⟨row, hrow, ?_⟩
      rw [if_pos]
      simp only [Bool.and_eq_true, decide_eq_true_eq]
      exact ⟨⟨⟨hc.1, hc.2⟩, hlen⟩, by rw [hx1]; exact hx⟩
    · rw [if_neg hc] at hsome
      exact absurd hsome (by simp)

/-! ### Claim theorems -/

/-- C2, counterexample: the generated task id is NOT a function of the task
name and database id alone — two calls with identical name and database id
but different uuid draws yield different ids. -/
theorem c2_counterexample :
    generate_task_id "Fix bug" "db123" "aaaaaaaa"
      ≠ generate_task_id "Fix bug" "db123" "bbbbbbbb" := by decide

/-- C2 (amended): the generated task id is a deterministic function of the
task name, the database id and the drawn random suffix; two calls with
identical name and database id yield the same id exactly when the
uppercased drawn suffixes agree. -/
theorem c2_task_id_deterministic_given_suffix (n d s₁ s₂ : String) :
    generate_task_id n d s₁ = generate_task_id n d s₂ ↔ pyUpper s₁ = pyUpper s₂ := by
  constructor
  · intro h
    have hd := congrArg String.data h
    rw [generate_task_id_data, generate_task_id_data] at hd
    have h1 : '_' :: s₁.data.map Char.toUpper = '_' :: s₂.data.map Char.toUpper :=
      List.append_cancel_left hd
    apply String.ext
    simpa [pyUpper] using h1
  · intro h
    have hd : s₁.data.map Char.toUpper = s₂.data.map Char.toUpper := by
      simpa [pyUpper] using congrArg String.data h
    apply String.ext
    rw [generate_task_id_data, generate_task_id_data, hd]

/-- C2 witness: two suffix draws differing only in letter case produce the
same uppercased id. -/
theorem c2_task_id_deterministic_given_suffix_witness :
    pyUpper "abc-1234" = pyUpper "ABC-1234"
      ∧ generate_task_id "Fix bug" "db123" "abc-1234"
          = generate_task_id "Fix bug" "db123" "ABC-1234" :=
  ⟨by decide,
    (c2_task_id_deterministic_given_suffix "Fix bug" "db123" "abc-1234" "ABC-1234").mpr
      (by decide)⟩

/-- C3: re-running the sync for a worker over the same unchanged task list,
after a first run against a canonically-headed Tasks table, appends zero
new rows: each task appended by the first run carries the `NOTION_` marker
in its id, so its normalized name is an existing key of the second run and
the task is filtered out.  (Task names arriving from the external source
are non-blank, which the hypothesis records.) -/
theorem c3_sync_resync_idempotent (data : List (List String)) (tasks : List NotionTask)
    (today₁ today₂ : String) (uuid₁ uuid₂ : Nat → String)
    (hnames : ∀ t ∈ tasks, pyStrip t.task_name ≠ "") :
    sync_worker_tasks (sync_worker_tasks (defaultTasksHeader :: data) tasks today₁ uuid₁)
        tasks today₂ uuid₂
      = sync_worker_tasks (defaultTasksHeader :: data) tasks today₁ uuid₁ := by
  apply sync_worker_tasks_no_new
  intro t ht
  rw [sync_worker_tasks_canonical, get_existing_notion_tasks_canonical, List.filterMap_append]
  by_cases hk0 : normalize_task_name t.task_name
      ∈ get_existing_notion_tasks (defaultTasksHeader :: data)
  · apply List.mem_append_left
    rw [get_existing_notion_tasks_canonical] at hk0
    exact hk0
  · apply List.mem_append_right
    rw [mkNewRows_filterMap]
    · refine List.mem_map.mpr ⟨t, ?_, rfl⟩
      rw [filter_new_tasks_eq_filter]
      exact List.mem_filter.mpr ⟨ht, by simpa using hk0⟩
    · intro x hx
      rw [filter_new_tasks_eq_filter] at hx
      exact hnames x (List.mem_filter.mp hx).1

/-- C3 witness: the idempotency theorem applied to a one-task sync against
a freshly initialized (header-only) Tasks table. -/
theorem c3_sync_resync_idempotent_witness :
    (∀ t ∈ [(⟨"Fix bug", "01.01.2026", "", "Ivan Ivanov", "db1234567890", ""⟩ : NotionTask)],
        pyStrip t.task_name ≠ "")
      ∧ sync_worker_tasks
          (sync_worker_tasks (defaultTasksHeader :: [])
            [⟨"Fix bug", "01.01.2026", "", "Ivan Ivanov", "db1234567890", ""⟩]
            "05.01.2026" (fun _ => "aaaa-bbb"))
          [⟨"Fix bug", "01.01.2026", "", "Ivan Ivanov", "db1234567890", ""⟩]
          "06.01.2026" (fun _ => "cccc-ddd")
        = sync_worker_tasks (defaultTasksHeader :: [])
            [⟨"Fix bug", "01.01.2026", "", "Ivan Ivanov", "db1234567890", ""⟩]
            "05.01.2026" (fun _ => "aaaa-bbb") :=
  ⟨by decide,
    c3_sync_resync_idempotent [] [⟨"Fix bug", "01.01.2026", "", "Ivan Ivanov", "db1234567890", ""⟩]
      "05.01.2026" "06.01.2026" (fun _ => "aaaa-bbb") (fun _ => "cccc-ddd") (by decide)⟩

/-- C4, counterexample: the assignee display name "Anna Maria Lopez" has
three meaningful tokens, yet name resolution succeeds (both the first and
the last name are non-empty), contradicting the claim that names with more
than two tokens fail resolution. -/
theorem c4_counterexample :
    (cleanNameParts "Anna Maria Lopez").length = 3
      ∧ (clean_worker_name "Anna Maria Lopez").1 ≠ ""
      ∧ (clean_worker_name "Anna Maria Lopez").2 ≠ "" := by decide

/-- C4 (amended): name resolution cleans the display name, splits it on
whitespace and takes the first two tokens as first/last name; it fails
(producing an empty first or last name) exactly when the cleaned name has
fewer than two meaningful tokens. -/
theorem c4_resolution_fails_iff_lt_two_tokens (w : String) :
    ((clean_worker_name w).1 = "" ∨ (clean_worker_name w).2 = "")
      ↔ (cleanNameParts w).length < 2 := by
  have hform : clean_worker_name w
      = (match cleanNameParts w with
          | p0 :: p1 :: _ => (p0, p1)
          | [p0] => (p0, "")
          | [] => ("", "")) := rfl
  have htok : ∀ t ∈ cleanNameParts w, t ≠ "" := by
    intro t ht
    exact pySplit_ne_empty _ t ht
  cases hp : cleanNameParts w with
  | nil => rw [hform, hp]; simp
  | cons p0 tl =>
    cases tl with
    | nil => rw [hform, hp]; simp
    | cons p1 tl2 =>
      rw [hform, hp]
      have h0 : p0 ≠ "" := htok p0 (by rw [hp]; simp)
      have h1 : p1 ≠ "" := htok p1 (by rw [hp]; simp)
      simp [h0, h1]

/-- C4 witness: a one-token name fails resolution (empty last name). -/
theorem c4_resolution_fails_iff_lt_two_tokens_witness :
    ((clean_worker_name "Ivan").1 = "" ∨ (clean_worker_name "Ivan").2 = "")
      ∧ (cleanNameParts "Ivan").length < 2 :=
  ⟨(c4_resolution_fails_iff_lt_two_tokens "Ivan").mpr (by decide), by decide⟩

/-- C5: the deduplication filter of `_sync_worker_tasks` is exactly
`List.filter` with the not-an-existing-key predicate: survivors are
precisely the candidates whose normalized name is outside the existing-key
set, in candidate order (a sublist), and the computation consumes only its
two arguments — no row-store access. -/
theorem c5_filter_new_exact (tasks : List NotionTask) (existing : List String) :
    filter_new_tasks tasks existing
        = tasks.filter (fun t => decide (normalize_task_name t.task_name ∉ existing))
      ∧ List.Sublist (filter_new_tasks tasks existing) tasks
      ∧ ∀ t : NotionTask, t ∈ filter_new_tasks tasks existing
          ↔ t ∈ tasks ∧ normalize_task_name t.task_name ∉ existing := by
  refine ⟨filter_new_tasks_eq_filter tasks existing, ?_, ?_⟩
  · rw [filter_new_tasks_eq_filter]
    exact List.filter_sublist tasks
  · intro t
    rw [filter_new_tasks_eq_filter, List.mem_filter]
    simp

/-- C9: the task identity key is deterministic and due-date-independent:
whenever two candidate tasks' names have the same spec-side normal form
(lowercased, whitespace-collapsed, trimmed), their identity keys agree,
whatever their due dates. -/
theorem c9_identity_due_date_independent (t₁ t₂ : NotionTask)
    (h : specNormalizedName t₁.task_name = specNormalizedName t₂.task_name) :
    identityKey t₁ = identityKey t₂ := by
  have key_eq : ∀ s, normalize_task_name s = specNormalizedName s := by
    intro s
    by_cases hs : s = ""
    · subst hs; rfl
    · simp [normalize_task_name, specNormalizedName, hs]
  unfold identityKey
  rw [key_eq, key_eq, h]

/-- C9 witness: two tasks whose names normalize identically but whose due
dates differ share one identity key. -/
theorem c9_identity_witness :
    specNormalizedName " Fix  Bug " = specNormalizedName "fix bug"
      ∧ identityKey ⟨" Fix  Bug ", "01.01.2026", "", "W", "db", ""⟩
          = identityKey ⟨"fix bug", "02.02.2026", "", "W", "db", ""⟩ :=
  ⟨by decide,
    c9_identity_due_date_independent
      ⟨" Fix  Bug ", "01.01.2026", "", "W", "db", ""⟩
      ⟨"fix bug", "02.02.2026", "", "W", "db", ""⟩ (by decide)⟩

/-- C1: with one active task and one general report row (empty task id) for
the queried date, `check_report_submitted` returns `false`, although the
spec (and the function's own documentation) promise `true`; the second
conjunct shows why — `get_existing_reports_for_date` silently drops the
general-report row, so the general-report check can never fire. -/
theorem c1_general_report_ignored :
    check_report_submitted
        [defaultTasksHeader, ["01.01.2026", "T1", "Do thing", "", ""]]
        [defaultReportsHeader, ["05.01.2026", "", "ok", "none", "done"]]
        "05.01.2026" = false
      ∧ get_existing_reports_for_date
          [defaultReportsHeader, ["05.01.2026", "", "ok", "none", "done"]]
          "05.01.2026" = [] := by
  constructor
  · rfl
  · rfl

/-- C7: over canonically-headed tables, `get_tasks_without_reports_today`
returns exactly the active tasks whose id does not occur among the task-id
cells of today's report rows, in active-task order. -/
theorem c7_tasks_without_reports_exact (taskData reportData : List (List String))
    (today : String) :
    get_tasks_without_reports_today (defaultTasksHeader :: taskData)
        (defaultReportsHeader :: reportData) today
      = (get_employee_active_tasks (defaultTasksHeader :: taskData)).filter
          (fun t => decide (t.task_id ∉ todayReportRowIds reportData today)) := by
  unfold get_tasks_without_reports_today
  by_cases hempty : (get_employee_active_tasks (defaultTasksHeader :: taskData)).isEmpty
  · rw [if_pos hempty]
    rw [List.isEmpty_iff] at hempty
    rw [hempty]
    rfl
  · rw [if_neg hempty]
    apply List.filter_congr
    intro x hx
    have hstrip := mem_active_canonical_strip_ne taskData x hx
    have hiff := reported_mem_iff reportData today x.task_id hstrip
    simp only [decide_eq_decide]
    rw [hiff]

/-- C10, counterexample: with the Tasks header ordered
`[Task ID, Задача, Дата, Дедлайн, Выполнено]`, the row `["T1", "desc"]` has
non-blank task-id and description cells and no completion mark, yet
`get_employee_active_tasks` omits it: the row is skipped because it does
not reach the date column. -/
theorem c10_counterexample :
    get_employee_active_tasks
        [["Task ID", "Задача", "Дата", "Дедлайн", "Выполнено"], ["T1", "desc"]] = []
      ∧ pyStrip "T1" ≠ "" ∧ pyStrip "desc" ≠ ""
      ∧ pyLower (pyStrip ((["T1", "desc"] : List String).getD 4 "")) ∉ completedMarks := by
  refine ⟨rfl, by decide, by decide, by decide⟩

/-- C10 (amended): a Tasks-table row is returned by
`get_employee_active_tasks` exactly when it reaches past the furthest of
the date, task-id and task columns, its task-id and description cells are
non-blank after trimming, and its completed cell (trimmed, lowercased) is
not a completion mark; the survivors appear in row order. -/
theorem c10_active_tasks_exact (header : List String) (data : List (List String))
    (d i t : Nat) (dl cc : Option Nat)
    (hcols : taskColsLoop ⟨none, none, none, none, none⟩ 0 header
      = ⟨some d, some i, some t, dl, cc⟩) :
    get_employee_active_tasks (header :: data)
      = (data.filter (activeRowPred d i t cc)).map (mkActiveTask d i t dl) :=
  get_employee_active_tasks_eq header data d i t dl cc hcols

/-- C10 witness: the amended characterization applied to the canonical
header and one completed plus one active row. -/
theorem c10_active_tasks_exact_witness :
    taskColsLoop ⟨none, none, none, none, none⟩ 0 defaultTasksHeader
        = ⟨some 0, some 1, some 2, some 3, some 4⟩
      ∧ get_employee_active_tasks
          (defaultTasksHeader :: [["01.01", "A", "ta", "", ""], ["01.01", "B", "tb", "", "да"]])
        = (([["01.01", "A", "ta", "", ""], ["01.01", "B", "tb", "", "да"]].filter
            (activeRowPred 0 1 2 (some 4))).map (mkActiveTask 0 1 2 (some 3))) :=
  ⟨by decide,
    c10_active_tasks_exact defaultTasksHeader
      [["01.01", "A", "ta", "", ""], ["01.01", "B", "tb", "", "да"]]
      0 1 2 (some 3) (some 4) (by decide)⟩

/-! ### Helper lemmas: missing report columns -/

theorem step5_date_ne (acc : ReportCols5) (i : Nat) (x : String)
    (hx : x ≠ reports_date_col) : (reportCols5Step acc i x).date = acc.date := by
  unfold reportCols5Step
  split_ifs with h1 h2 h3 h4 _ <;> first | exact absurd h1 hx | rfl

theorem step5_task_id_ne (acc : ReportCols5) (i : Nat) (x : String)
    (hx : x ≠ reports_task_id_col) : (reportCols5Step acc i x).task_id = acc.task_id := by
  unfold reportCols5Step
  split_ifs with h1 h2 h3 h4 _ <;> first | exact absurd h2 hx | rfl

theorem step5_feedback_ne (acc : ReportCols5) (i : Nat) (x : String)
    (hx : x ≠ reports_feedback_col) : (reportCols5Step acc i x).feedback = acc.feedback := by
  unfold reportCols5Step
  split_ifs with h1 h2 h3 h4 _ <;> first | exact absurd h3 hx | rfl

theorem step5_difficulties_ne (acc : ReportCols5) (i : Nat) (x : String)
    (hx : x ≠ reports_difficulties_col) :
    (reportCols5Step acc i x).difficulties = acc.difficulties := by
  unfold reportCols5Step
  split_ifs with h1 h2 h3 h4 _ <;> first | exact absurd h4 hx | rfl

theorem step5_daily_report_ne (acc : ReportCols5) (i : Nat) (x : String)
    (hx : x ≠ reports_daily_report_col) :
    (reportCols5Step acc i x).daily_report = acc.daily_report := by
  unfold reportCols5Step
  split_ifs with h1 h2 h3 h4 h5 <;> first | exact absurd h5 hx | rfl

theorem cols5_date_none (header : List String) (h : reports_date_col ∉ header) :
    ∀ (acc : ReportCols5) (i : Nat), acc.date = none →
      (reportCols5Loop acc i header).date = none := by
  induction header with
  | nil => intro acc i hacc; exact hacc
  | cons x rest ih =>
    intro acc i hacc
    refine ih (fun hm => h (List.mem_cons_of_mem x hm)) _ (i + 1) ?_
    rw [step5_date_ne acc i x (fun he => h (he ▸ List.mem_cons_self x rest))]
    exact hacc

theorem cols5_task_id_none (header : List String) (h : reports_task_id_col ∉ header) :
    ∀ (acc : ReportCols5) (i : Nat), acc.task_id = none →
      (reportCols5Loop acc i header).task_id = none := by
  induction header with
  | nil => intro acc i hacc; exact hacc
  | cons x rest ih =>
    intro acc i hacc
    refine ih (fun hm => h (List.mem_cons_of_mem x hm)) _ (i + 1) ?_
    rw [step5_task_id_ne acc i x (fun he => h (he ▸ List.mem_cons_self x rest))]
    exact hacc

theorem cols5_feedback_none (header : List String) (h : reports_feedback_col ∉ header) :
    ∀ (acc : ReportCols5) (i : Nat), acc.feedback = none →
      (reportCols5Loop acc i header).feedback = none := by
  induction header with
  | nil => intro acc i hacc; exact hacc
  | cons x rest ih =>
    intro acc i hacc
    refine ih (fun hm => h (List.mem_cons_of_mem x hm)) _ (i + 1) ?_
    rw [step5_feedback_ne acc i x (fun he => h (he ▸ List.mem_cons_self x rest))]
    exact hacc

theorem cols5_difficulties_none (header : List String)
    (h : reports_difficulties_col ∉ header) :
    ∀ (acc : ReportCols5) (i : Nat), acc.difficulties = none →
      (reportCols5Loop acc i header).difficulties = none := by
  induction header with
  | nil => intro acc i hacc; exact hacc
  | cons x rest ih =>
    intro acc i hacc
    refine ih (fun hm => h (List.mem_cons_of_mem x hm)) _ (i + 1) ?_
    rw [step5_difficulties_ne acc i x (fun he => h (he ▸ List.mem_cons_self x rest))]
    exact hacc

theorem cols5_daily_report_none (header : List String)
    (h : reports_daily_report_col ∉ header) :
    ∀ (acc : ReportCols5) (i : Nat), acc.daily_report = none →
      (reportCols5Loop acc i header).daily_report = none := by
  induction header with
  | nil => intro acc i hacc; exact hacc
  | cons x rest ih =>
    intro acc i hacc
    refine ih (fun hm => h (List.mem_cons_of_mem x hm)) _ (i + 1) ?_
    rw [step5_daily_report_ne acc i x (fun he => h (he ▸ List.mem_cons_self x rest))]
    exact hacc

theorem save_daily_report_field_none (header : List String) (data : List (List String))
    (today tid fb df dr : String)
    (h : (reportCols5Loop ⟨none, none, none, none, none⟩ 0 header).date = none
      ∨ (reportCols5Loop ⟨none, none, none, none, none⟩ 0 header).task_id = none
      ∨ (reportCols5Loop ⟨none, none, none, none, none⟩ 0 header).feedback = none
      ∨ (reportCols5Loop ⟨none, none, none, none, none⟩ 0 header).difficulties = none
      ∨ (reportCols5Loop ⟨none, none, none, none, none⟩ 0 header).daily_report = none) :
    save_daily_report (header :: data) today tid fb df dr = (false, header :: data) := by
  unfold save_daily_report
  simp only [List.isEmpty_cons, Bool.false_eq_true, if_false, List.headD_cons]
  rcases hc : reportCols5Loop ⟨none, none, none, none, none⟩ 0 header with ⟨cd, ct, cf, cdf, cdr⟩
  rw [hc] at h
  simp only [] at h
  cases cd <;> cases ct <;> cases cf <;> cases cdf <;> cases cdr <;> simp_all

/-- C8: if any of the five configured report columns is absent from the
Reports-table header row, `save_daily_report` returns a failed result and
leaves every table row untouched — no partial write. -/
theorem c8_missing_column_aborts (header : List String) (data : List (List String))
    (today tid fb df dr : String)
    (hmiss : reports_date_col ∉ header ∨ reports_task_id_col ∉ header
      ∨ reports_feedback_col ∉ header ∨ reports_difficulties_col ∉ header
      ∨ reports_daily_report_col ∉ header) :
    save_daily_report (header :: data) today tid fb df dr = (false, header :: data) := by
  apply save_daily_report_field_none
  rcases hmiss with h | h | h | h | h
  · exact Or.inl (cols5_date_none header h _ 0 rfl)
  · exact Or.inr (Or.inl (cols5_task_id_none header h _ 0 rfl))
  · exact Or.inr (Or.inr (Or.inl (cols5_feedback_none header h _ 0 rfl)))
  · exact Or.inr (Or.inr (Or.inr (Or.inl (cols5_difficulties_none header h _ 0 rfl))))
  · exact Or.inr (Or.inr (Or.inr (Or.inr (cols5_daily_report_none header h _ 0 rfl))))

/-- C8 witness: a header missing the daily-report column makes the save
fail with the table unchanged. -/
theorem c8_missing_column_aborts_witness :
    reports_daily_report_col
        ∉ (["Date", "Task ID", "Фидбек по задачам", "Сложности по задачам"] : List String)
      ∧ save_daily_report
          (["Date", "Task ID", "Фидбек по задачам", "Сложности по задачам"]
            :: [["05.01.2026", "T1", "a", "b"]]) "05.01.2026" "T1" "f" "d" "r"
        = (false, ["Date", "Task ID", "Фидбек по задачам", "Сложности по задачам"]
            :: [["05.01.2026", "T1", "a", "b"]]) :=
  ⟨by decide,
    c8_missing_column_aborts ["Date", "Task ID", "Фидбек по задачам", "Сложности по задачам"]
      [["05.01.2026", "T1", "a", "b"]] "05.01.2026" "T1" "f" "d" "r"
      (Or.inr (Or.inr (Or.inr (Or.inr (by decide)))))⟩

/-! ### Helper lemmas: `save_daily_report` over the canonical header -/

theorem findIdx?_some_facts {α : Type} (p : α → Bool) :
    ∀ (l : List α) (j : Nat) (a : α), l.findIdx? p = some j →
      j < l.length ∧ p (l.getD j a) = true := by
  intro l
  induction l with
  | nil => intro j a h; simp [List.findIdx?] at h
  | cons x xs ih =>
    intro j a h
    rw [List.findIdx?_cons] at h
    by_cases hp : p x
    · rw [if_pos hp] at h
      have hj := Option.some.inj h
      subst hj
      exact ⟨by simp, by simpa [List.getD_cons_zero] using hp⟩
    · rw [if_neg hp, List.findIdx?_succ] at h
      rcases hmap : xs.findIdx? p with _ | j'
      · rw [hmap] at h; simp at h
      · rw [hmap] at h
        simp at h
        subst h
        have hrec := ih j' a hmap
        exact ⟨by simpa using hrec.1, by simpa [List.getD_cons_succ] using hrec.2⟩

theorem getD_replicate_empty : ∀ (k i : Nat), (List.replicate k ("" : String)).getD i "" = "" := by
  intro k
  induction k with
  | zero => intro i; simp
  | succ k ih =>
    intro i
    cases i with
    | zero => simp [List.replicate]
    | succ i => simpa [List.replicate, List.getD_cons_succ] using ih i

theorem getD_append_replicate (row : List String) (n m : Nat) :
    (row ++ List.replicate n "").getD m "" = row.getD m "" := by
  rcases lt_or_ge m row.length with h | h
  · exact List.getD_append row _ "" m h
  · rw [List.getD_append_right row _ "" m h, List.getD_eq_default row "" h,
      getD_replicate_empty]

theorem getD_set_ne (l : List String) (k m : Nat) (v : String) (h : m ≠ k) :
    (l.set k v).getD m "" = l.getD m "" := by
  show ((l.set k v).get? m).getD "" = (l.get? m).getD ""
  rw [List.get?_set_ne v l (Ne.symm h)]

theorem setCellPad_getD_ne (row : List String) (k : Nat) (v : String) (m : Nat)
    (h : m ≠ k) : (setCellPad row k v).getD m "" = row.getD m "" := by
  unfold setCellPad
  rw [getD_set_ne _ _ _ _ h, getD_append_replicate]

theorem setCellPad_length (row : List String) (k : Nat) (v : String) :
    (setCellPad row k v).length = max row.length (k + 1) := by
  unfold setCellPad
  simp [List.length_set, List.length_append, List.length_replicate]
  omega

theorem updateReportCells_getD_lt2 (r : List String) (fb df dr : String) (m : Nat)
    (hm : m < 2) : (updateReportCells 2 fb df dr r).getD m "" = r.getD m "" := by
  unfold updateReportCells
  rw [setCellPad_getD_ne _ _ _ _ (by omega), setCellPad_getD_ne _ _ _ _ (by omega),
    setCellPad_getD_ne _ _ _ _ (by omega)]

theorem updateReportCells_length (r : List String) (fb df dr : String) :
    (updateReportCells 2 fb df dr r).length = max r.length 5 := by
  unfold updateReportCells
  rw [setCellPad_length, setCellPad_length, setCellPad_length]
  omega

theorem matchReportRow_true_iff (dCol iCol : Nat) (d t : String) (row : List String) :
    matchReportRow dCol iCol d t row = true
      ↔ (row.length > max dCol iCol ∧ row.getD dCol "" = d ∧ row.getD iCol "" = t) := by
  simp [matchReportRow, and_assoc]

theorem match_updateReportCells (r : List String) (fb df dr d t : String) (ht : t ≠ "") :
    matchReportRow 0 1 d t (updateReportCells 2 fb df dr r)
      = matchReportRow 0 1 d t r := by
  have h0 := updateReportCells_getD_lt2 r fb df dr 0 (by omega)
  have h1 := updateReportCells_getD_lt2 r fb df dr 1 (by omega)
  have hlen : (updateReportCells 2 fb df dr r).length > 1 := by
    rw [updateReportCells_length]; omega
  cases hR : matchReportRow 0 1 d t r with
  | true =>
    rcases (matchReportRow_true_iff 0 1 d t r).mp hR with ⟨hlr, hd, hi⟩
    exact (matchReportRow_true_iff 0 1 d t _).mpr
      ⟨by simpa using hlen, by rw [h0]; exact hd, by rw [h1]; exact hi⟩
  | false =>
    apply Bool.eq_false_iff.mpr
    intro hcon
    rcases (matchReportRow_true_iff 0 1 d t _).mp hcon with ⟨_, hd, hi⟩
    rw [h0] at hd
    rw [h1] at hi
    by_cases hlr : r.length > 1
    · have := (matchReportRow_true_iff 0 1 d t r).mpr ⟨by simpa using hlr, hd, hi⟩
      rw [hR] at this
      exact Bool.false_ne_true this
    · have hget1 : r.getD 1 "" = "" := List.getD_eq_default r "" (by omega)
      rw [hget1] at hi
      exact ht hi.symm

theorem countP_set_eq {α : Type} (p : α → Bool) :
    ∀ (l : List α) (j : Nat) (a b : α), j < l.length → p a = p (l.getD j b) →
      (l.set j a).countP p = l.countP p := by
  intro l
  induction l with
  | nil => intro j a b h _; simp at h
  | cons x xs ih =>
    intro j a b hj hp
    cases j with
    | zero =>
      rw [List.getD_cons_zero] at hp
      simp [List.set, List.countP_cons, hp]
    | succ j =>
      rw [List.getD_cons_succ] at hp
      have hrec := ih j a b (by simpa using hj) hp
      simp [List.set, List.countP_cons, hrec]

theorem reportCols5Loop_default :
    reportCols5Loop ⟨none, none, none, none, none⟩ 0 defaultReportsHeader
      = ⟨some 0, some 1, some 2, some 3, some 4⟩ := by decide

theorem save_daily_report_canonical_update (data : List (List String))
    (today tid fb df dr : String) (j : Nat) (htid : tid ≠ "")
    (hfind : data.findIdx? (matchReportRow 0 1 today tid) = some j) :
    save_daily_report (defaultReportsHeader :: data) today tid fb df dr
      = (true, defaultReportsHeader
          :: data.set j (updateReportCells 2 fb df dr (data.getD j []))) := by
  unfold save_daily_report
  simp only [List.isEmpty_cons, Bool.false_eq_true, if_false, List.headD_cons,
    reportCols5Loop_default, List.tail_cons]
  rw [if_pos htid, hfind]

theorem save_daily_report_canonical_append (data : List (List String))
    (today tid fb df dr : String)
    (hnone : (if tid ≠ "" then data.findIdx? (matchReportRow 0 1 today tid) else none)
      = none) :
    save_daily_report (defaultReportsHeader :: data) today tid fb df dr
      = (true, defaultReportsHeader :: (data ++ [[today, tid, fb, df, dr]])) := by
  unfold save_daily_report
  simp only [List.isEmpty_cons, Bool.false_eq_true, if_false, List.headD_cons,
    reportCols5Loop_default, List.tail_cons]
  rw [hnone]
  rfl

/-- C6: over a canonically-headed Reports table, `save_daily_report`
succeeds and preserves the at-most-one-row-per-`(date, non-empty task id)`
invariant; a save with an empty task id always appends its row after the
existing rows (overwriting none of them), and a save with a non-empty task
id whose `(today, task_id)` pair already has a row keeps the row count and
changes no other row. -/
theorem c6_save_report_key_invariant (data : List (List String))
    (today tid fb df dr : String) (hinv : atMostOnePerPair data) :
    (save_daily_report (defaultReportsHeader :: data) today tid fb df dr).1 = true
      ∧ atMostOnePerPair
          ((save_daily_report (defaultReportsHeader :: data) today tid fb df dr).2.tail)
      ∧ (tid = "" →
          (save_daily_report (defaultReportsHeader :: data) today tid fb df dr).2
            = defaultReportsHeader :: (data ++ [[today, tid, fb, df, dr]]))
      ∧ (∀ j, tid ≠ "" → data.findIdx? (matchReportRow 0 1 today tid) = some j →
          (save_daily_report (defaultReportsHeader :: data) today tid fb df dr).2.tail.length
              = data.length
            ∧ ∀ k, k ≠ j →
                (save_daily_report (defaultReportsHeader :: data) today tid fb df dr).2.tail.get? k
                  = data.get? k) := by
  by_cases htid : tid = ""
  · subst htid
    rw [save_daily_report_canonical_append data today "" fb df dr (by simp)]
    refine ⟨rfl, ?_, fun _ => rfl, fun j hne _ => absurd rfl hne⟩
    intro d t ht
    simp only [List.tail_cons]
    rw [List.countP_append]
    have hrow : matchReportRow 0 1 d t [today, "", fb, df, dr] = false := by
      apply Bool.eq_false_iff.mpr
      intro hcon
      rcases (matchReportRow_true_iff 0 1 d t _).mp hcon with ⟨_, _, hi⟩
      exact ht hi.symm
    simpa [List.countP_cons, hrow] using hinv d t ht
  · rcases hfind : data.findIdx? (matchReportRow 0 1 today tid) with _ | j
    · rw [save_daily_report_canonical_append data today tid fb df dr
        (by rw [if_pos htid]; exact hfind)]
      refine ⟨rfl, ?_, fun h => absurd h htid, ?_⟩
      · intro d t ht
        simp only [List.tail_cons]
        rw [List.countP_append]
        by_cases hdt : d = today ∧ t = tid
        · have hz : data.countP (matchReportRow 0 1 d t) = 0 := by
            rw [List.countP_eq_zero]
            rcases hdt with ⟨hd, htt⟩
            subst hd; subst htt
            intro r hr
            simp [List.findIdx?_eq_none_iff.mp hfind r hr]
          rw [hz]
          have hle : List.countP (matchReportRow 0 1 d t) [[today, tid, fb, df, dr]] ≤ 1 :=
            le_trans (List.countP_le_length _) (by simp)
          omega
        · have hrow : matchReportRow 0 1 d t [today, tid, fb, df, dr] = false := by
            apply Bool.eq_false_iff.mpr
            intro hcon
            rcases (matchReportRow_true_iff 0 1 d t _).mp hcon with ⟨_, hd, hi⟩
            exact hdt ⟨hd.symm, hi.symm⟩
          simpa [List.countP_cons, hrow] using hinv d t ht
      · intro j hne hsome
        exact absurd hsome (by simp)
    · have hfacts := findIdx?_some_facts (matchReportRow 0 1 today tid) data j [] hfind
      rw [save_daily_report_canonical_update data today tid fb df dr j htid hfind]
      refine ⟨rfl, ?_, fun h => absurd h htid, ?_⟩
      · intro d t ht
        simp only [List.tail_cons]
        rw [countP_set_eq (matchReportRow 0 1 d t) data j _ [] hfacts.1
          (match_updateReportCells (data.getD j []) fb df dr d t ht)]
        exact hinv d t ht
      · intro j' hne hsome
        have hj' : j' = j := (Option.some.inj hsome).symm
        subst hj'
        refine ⟨by simp [List.tail_cons, List.length_set], ?_⟩
        intro k hk
        simp only [List.tail_cons]
        exact List.get?_set_ne _ _ (Ne.symm hk)

/-- C6 witness: the invariant theorem applied to a table holding one
task-specific report row, updated in place. -/
theorem c6_save_report_key_invariant_witness :
    atMostOnePerPair [["05.01.2026", "T1", "a", "b", "c"]]
      ∧ (save_daily_report (defaultReportsHeader :: [["05.01.2026", "T1", "a", "b", "c"]])
          "05.01.2026" "T1" "f" "d" "r").1 = true := by
  have hinv : atMostOnePerPair [["05.01.2026", "T1", "a", "b", "c"]] :=
    fun d t _ => le_trans (List.countP_le_length _) (by simp)
  exact ⟨hinv,
    (c6_save_report_key_invariant [["05.01.2026", "T1", "a", "b", "c"]]
      "05.01.2026" "T1" "f" "d" "r" hinv).1⟩

end Biamino
